import Mathlib

/-!
Shallow embedding of the wildfire-dashboard ingestion/normalization code
(`interface.py`) and of the downstream filtering/rendering data flow, together
with theorems settling the specification claims about it.

Modelling conventions:
* a pandas `DataFrame` is a `Table`: an ordered column schema, a list of rows
  (each row an association list of column name to cell), and a flag recording
  whether `set_index('fecha')` has installed the time index (each row then
  carries its index value in `tidx`, `none` standing for `NaT`);
* a cell is `null` (NaN), a string, a rational (pandas numerics), or a
  parsed timestamp;
* `pd.to_datetime(errors='coerce')` is modelled by `toDatetime`, restricted to
  ISO `YYYY-MM-DD` strings and nonnegative integer epochs (anything else
  coerces to null), and `pd.to_numeric(errors='coerce')` by `toNumeric` with a
  plain decimal parser;
* `st.error`/`st.warning` reports are collected as a list of strings;
* the zip archive is an `Archivo`: missing (`FileNotFoundError`), unreadable
  (any other exception), or a list of named entries with parsed CSV content.
-/

namespace Incendios

/-- A cell of the in-memory table: NaN, a string, a numeric value, or a
parsed timestamp (encoded as a natural number, ordered like dates). -/
inductive Cell where
  | null : Cell
  | str : String → Cell
  | num : ℚ → Cell
  | date : Nat → Cell
  deriving DecidableEq

/-- A row's data cells: association list from column name to cell. -/
abbrev Celdas := List (String × Cell)

/-- Reading column `c` of a row; a missing key reads as null (pandas would
raise `KeyError`, so theorems that depend on presence carry it as a
hypothesis). -/
def getCol : Celdas → String → Cell
  | [], _ => Cell.null
  | p :: r, c => if p.1 = c then p.2 else getCol r c

/-- Column assignment `df[c] = v` at row level: overwrite the first entry with
key `c`, or append the new column at the end (as pandas appends new columns
after the existing ones). -/
def setCol : Celdas → String → Cell → Celdas
  | [], c, v => [(c, v)]
  | p :: r, c, v => if p.1 = c then (c, v) :: r else p :: setCol r c v

/-- Whether a row has an entry for column `c`. -/
def tieneClave : Celdas → String → Bool
  | [], _ => false
  | p :: r, c => (p.1 == c) || tieneClave r c

/-- One row: its cells plus its time-index value once `set_index` has run
(`none` = `NaT`). -/
structure Row where
  cells : Celdas
  tidx : Option Nat
  deriving DecidableEq

/-- The in-memory table. -/
structure Table where
  cols : List String
  rows : List Row
  hasTimeIndex : Bool
  deriving DecidableEq

/-- `pd.DataFrame()`. -/
def tablaVacia : Table := ⟨[], [], false⟩

/-! ### Parsing helpers (models of the pandas coercions) -/

/-- Digits to a natural number. -/
def digitosANat (l : List Char) : Nat :=
  l.foldl (fun n c => n * 10 + (c.toNat - 48)) 0

/-- Nonempty all-digit character list. -/
def esDigitos (l : List Char) : Bool :=
  !l.isEmpty && l.all (fun c => c.isDigit)

/-- Split a character list at a separator (like Python's `str.split(sep)`). -/
def parteEn (sep : Char) : List Char → List (List Char)
  | [] => [[]]
  | c :: r =>
    if c = sep then [] :: parteEn sep r
    else
      match parteEn sep r with
      | t :: ts => (c :: t) :: ts
      | [] => [[c]]

/-- Model of `pd.to_datetime` string parsing, restricted to ISO `YYYY-MM-DD`;
the timestamp is encoded as `y*10000 + m*100 + d`, which orders like dates. -/
def parseFechaISO (s : String) : Option Nat :=
  match parteEn '-' s.toList with
  | [y, m, d] =>
    if esDigitos y && esDigitos m && esDigitos d
        && (y.length == 4) && (m.length == 2) && (d.length == 2)
        && decide (1 ≤ digitosANat m) && decide (digitosANat m ≤ 12)
        && decide (1 ≤ digitosANat d) && decide (digitosANat d ≤ 31)
    then some (digitosANat y * 10000 + digitosANat m * 100 + digitosANat d)
    else none
  | _ => none

/-- Model of `pd.to_datetime(x, errors='coerce')` on one cell: timestamps pass
through, ISO strings parse, nonnegative integers are accepted as epochs, and
everything else (including NaN) coerces to null (`NaT`). -/
def toDatetime (c : Cell) : Option Nat :=
  match c with
  | Cell.date d => some d
  | Cell.str s => parseFechaISO s
  | Cell.num q => if q.den == 1 && decide (0 ≤ q.num) then some q.num.toNat else none
  | Cell.null => none

/-- Simple decimal parser (optional sign, integer part, optional fraction)
modelling the strings `pd.to_numeric` accepts. -/
def parseNum (s : String) : Option ℚ :=
  let cuerpo : List Char → Option ℚ := fun l =>
    match parteEn '.' l with
    | [ent] =>
      if esDigitos ent then some (mkRat (digitosANat ent) 1) else none
    | [ent, fr] =>
      if esDigitos ent && esDigitos fr then
        some (mkRat (digitosANat ent * 10 ^ fr.length + digitosANat fr) (10 ^ fr.length))
      else none
    | _ => none
  match s.toList with
  | '-' :: resto => (cuerpo resto).map (fun q => -q)
  | l => cuerpo l

/-- Model of `pd.to_numeric(x, errors='coerce')` on one cell. -/
def toNumeric (c : Cell) : Cell :=
  match c with
  | Cell.num q => Cell.num q
  | Cell.str s => (parseNum s).elim Cell.null Cell.num
  | Cell.date d => Cell.num (d : ℚ)
  | Cell.null => Cell.null

/-! ### The date-column detector (interface.py line 69) -/

/-- Python's `sub in s` on character lists: `sub` occurs contiguously in `s`. -/
def contieneSub (pat : List Char) : List Char → Bool
  | [] => pat.isEmpty
  | c :: r => pat.isPrefixOf (c :: r) || contieneSub pat r

/-- `str.lower()` on the characters of a column name. -/
def minusculas (c : String) : List Char :=
  c.toList.map Char.toLower

/-- `'fecha' in c.lower() or 'date' in c.lower()`: case-insensitive substring
test used by the code to spot a date column. -/
def esNombreFecha (c : String) : Bool :=
  contieneSub "fecha".toList (minusculas c) || contieneSub "date".toList (minusculas c)

/-- `next((c for c in df.columns if 'fecha' in c.lower() or 'date' in
c.lower()), None)`: the first table column, in schema order, whose lowercased
name contains `fecha` or `date`. -/
def colFechaDetect (cols : List String) : Option String :=
  cols.find? esNombreFecha

/-- The Column Detector as the specification words it: given the schema and an
ordered candidate list, the first candidate present in the table by exact,
case-sensitive string match, else a not-found signal. -/
def detectorSpec (cols : List String) (candidatos : List String) : Option String :=
  candidatos.find? (fun cand => cols.contains cand)

/-! ### Ordering used by `sort_index()` (ascending, NaT last) -/

/-- Comparison on index values: present values in ascending order, `NaT`
sorting last (pandas' default `na_position='last'`). -/
def leIdx : Option Nat → Option Nat → Bool
  | none, none => true
  | none, some _ => false
  | some _, none => true
  | some a, some b => decide (a ≤ b)

/-- Row ordering by time-index value. -/
def RowLe (a b : Row) : Prop := leIdx a.tidx b.tidx = true

instance : DecidableRel RowLe := fun _ _ => instDecidableEqBool _ _

instance : IsTotal Row RowLe := by
  constructor
  intro a b
  unfold RowLe leIdx
  rcases a.tidx with _ | x <;> rcases b.tidx with _ | y <;> simp
  omega

instance : IsTrans Row RowLe := by
  constructor
  intro a b c
  unfold RowLe leIdx
  rcases a.tidx with _ | x <;> rcases b.tidx with _ | y <;> rcases c.tidx with _ | z <;> simp
  omega

/-! ### The normalization steps of `cargar_datos` (lines 67–102) -/

/-- `set_index('fecha')` removes the `fecha` column from the schema. -/
def quitaFecha (cols : List String) : List String :=
  cols.filter (fun c => !(c == "fecha"))

/-- Per-row effect of `df['fecha'] = pd.to_datetime(df[cf], errors='coerce')`
followed by `set_index('fecha')`: the parsed value becomes the row's index and
the `fecha` column (just assigned) leaves the cells. -/
def filaConIdx (cf : String) (r : Row) : Row :=
  { cells := (setCol r.cells "fecha"
        ((toDatetime (getCol r.cells cf)).elim Cell.null Cell.date)).filter
      (fun p => !(p.1 == "fecha")),
    tidx := toDatetime (getCol r.cells cf) }

/-- Lines 69–73: detect a date column; when found, parse it (unparseable cells
become null, rows retained), set it as the time index and sort ascending. -/
def pasoFecha (df : Table) : Table :=
  match colFechaDetect df.cols with
  | none => df
  | some cf =>
    { cols := quitaFecha df.cols,
      rows := List.insertionSort RowLe (df.rows.map (filaConIdx cf)),
      hasTimeIndex := true }

/-- Line 76: `df.rename(columns={'lat': 'lat', 'lng': 'lng'})` — the mapping
as written in the source. -/
def renombraMapa : List (String × String) := [("lat", "lat"), ("lng", "lng")]

/-- Apply the rename mapping to one column name. -/
def aplicaRenombra (c : String) : String :=
  ((renombraMapa.find? (fun p => p.1 == c)).map (fun p => p.2)).getD c

/-- Line 76: the rename step over schema and rows. -/
def pasoRename (df : Table) : Table :=
  { df with
    cols := df.cols.map aplicaRenombra,
    rows := df.rows.map (fun r =>
      { r with cells := r.cells.map (fun p => (aplicaRenombra p.1, p.2)) }) }

/-- Line 77: the columns coerced to numeric. -/
def colsNum : List String :=
  ["superficie", "gastos", "perdidas", "lat", "lng", "idcomunidad", "idprovincia"]

/-- One `df[col] = pd.to_numeric(df[col], errors='coerce')`, guarded by
`col in df.columns`. -/
def coerceCol (cols : List String) (cs : Celdas) (c : String) : Celdas :=
  if cols.contains c then setCol cs c (toNumeric (getCol cs c)) else cs

/-- Per-row effect of the numeric-coercion loop. -/
def filaNum (cols : List String) (r : Row) : Row :=
  { r with cells := colsNum.foldl (coerceCol cols) r.cells }

/-- Lines 77–80: numeric coercion of the listed columns when present. -/
def pasoNumerico (df : Table) : Table :=
  { df with rows := df.rows.map (filaNum df.cols) }

/-- The lookup dictionaries built by `cargar_maestros`; a `none` field is a
key absent from the `maestros` dict. Keys compare by cell equality. -/
structure Diccionarios where
  comunidades : Option (List (Cell × String))
  provincias : Option (List (Cell × String))
  causas : Option (List (Cell × String))
  deriving DecidableEq

/-- `cargar_maestros` failed or found nothing: `{}`. -/
def dicVacio : Diccionarios := ⟨none, none, none⟩

/-- Appending a column in the schema if absent. -/
def addCol (cols : List String) (c : String) : List String :=
  if cols.contains c then cols else cols ++ [c]

/-- Per-row effect of assigning a derived column. -/
def filaPon (c : String) (f : Celdas → Cell) (r : Row) : Row :=
  { r with cells := setCol r.cells c (f r.cells) }

/-- `df[c] = <function of each row>`: assign a derived column. -/
def ponColumna (df : Table) (c : String) (f : Celdas → Cell) : Table :=
  { df with
    cols := addCol df.cols c,
    rows := df.rows.map (filaPon c f) }

/-- `series.map(dict).fillna(default)` on one cell: dictionary lookup by value,
with NaN and unmatched codes falling to the default label. -/
def etiqueta (m : List (Cell × String)) (v : Cell) (porDefecto : String) : Cell :=
  match v with
  | Cell.null => Cell.str porDefecto
  | w => Cell.str (((m.find? (fun p => p.1 == w)).map (fun p => p.2)).getD porDefecto)

/-- Lines 84–87: `nombre_comunidad` from `idcomunidad` via the lookup, default
`"Desconocido"` for unmapped codes, `"N/A"` when column or lookup is absent. -/
def pasoComunidad (dic : Diccionarios) (df : Table) : Table :=
  match dic.comunidades with
  | some m =>
    if df.cols.contains "idcomunidad" then
      ponColumna df "nombre_comunidad" (fun cs => etiqueta m (getCol cs "idcomunidad") "Desconocido")
    else
      ponColumna df "nombre_comunidad" (fun _ => Cell.str "N/A")
  | none => ponColumna df "nombre_comunidad" (fun _ => Cell.str "N/A")

/-- Lines 90–93: `nombre_provincia` from `idprovincia`, same shape. -/
def pasoProvincia (dic : Diccionarios) (df : Table) : Table :=
  match dic.provincias with
  | some m =>
    if df.cols.contains "idprovincia" then
      ponColumna df "nombre_provincia" (fun cs => etiqueta m (getCol cs "idprovincia") "Desconocido")
    else
      ponColumna df "nombre_provincia" (fun _ => Cell.str "N/A")
  | none => ponColumna df "nombre_provincia" (fun _ => Cell.str "N/A")

/-- Line 96: `col_causa = 'causa' if 'causa' in df.columns else 'idcausa'`. -/
def colCausa (cols : List String) : String :=
  if cols.contains "causa" then "causa" else "idcausa"

/-- Lines 96–100: `causa_texto` from the cause column via the lookup, default
`"No especificado"` for unmapped codes and `"Sin datos"` when the column or
the lookup is absent. -/
def pasoCausa (dic : Diccionarios) (df : Table) : Table :=
  match dic.causas with
  | some m =>
    if df.cols.contains (colCausa df.cols) then
      ponColumna df "causa_texto" (fun cs => etiqueta m (getCol cs (colCausa df.cols)) "No especificado")
    else
      ponColumna df "causa_texto" (fun _ => Cell.str "Sin datos")
  | none => ponColumna df "causa_texto" (fun _ => Cell.str "Sin datos")

/-- The whole normalization body of `cargar_datos` (lines 67–102), in source
order: date step, rename, numeric coercion, then the three translations. -/
def normalizar (dic : Diccionarios) (df : Table) : Table :=
  pasoCausa dic (pasoProvincia dic (pasoComunidad dic (pasoNumerico (pasoRename (pasoFecha df)))))

/-! ### The archive side of `cargar_datos` (lines 53–109) -/

/-- The zip archive as `cargar_datos` can encounter it. -/
inductive Archivo where
  | ausente : Archivo
  | ilegible : Archivo
  | zip : List (String × Table) → Archivo
  deriving DecidableEq

/-- Line 61: `f.endswith('.csv') and '__MACOSX' not in f`. -/
def esEntradaCsv (nombre : String) : Bool :=
  ".csv".toList.isSuffixOf nombre.toList && !(contieneSub "__MACOSX".toList nombre.toList)

/-- What a call to `cargar_datos` produces: the reports it emitted through
`st.error`, and the returned table. -/
structure CargaResultado where
  informes : List String
  tabla : Table
  deriving DecidableEq

/-- `cargar_datos`: missing archive and unreadable archive are caught and
reported with an empty table; an archive with no qualifying CSV entry returns
an empty table (line 62) with no report; otherwise the first qualifying
entry's content is normalized. -/
def cargar_datos (dic : Diccionarios) (a : Archivo) : CargaResultado :=
  match a with
  | Archivo.ausente => ⟨["No encuentro el archivo"], tablaVacia⟩
  | Archivo.ilegible => ⟨["Error critico cargando datos"], tablaVacia⟩
  | Archivo.zip entradas =>
    match entradas.filter (fun e => esEntradaCsv e.1) with
    | [] => ⟨[], tablaVacia⟩
    | e :: _ => ⟨[], normalizar dic e.2⟩

/-! ### Downstream views (lines 140–194) -/

/-- Line 141: `df_filtrado[df_filtrado['superficie'] >= min_sup]` — the NaN
comparison is false, so null cells never pass. -/
def cumpleSuperficie (t : ℚ) (c : Cell) : Bool :=
  match c with
  | Cell.num q => decide (t ≤ q)
  | _ => false

/-- The minimum-burned-area filter. -/
def filtraSuperficie (t : ℚ) (df : Table) : Table :=
  { df with rows := df.rows.filter (fun r => cumpleSuperficie t (getCol r.cells "superficie")) }

/-- Line 164: `df_geo = df_filtrado.dropna(subset=['lat', 'lng'])`. -/
def df_geo (df : Table) : Table :=
  { df with rows := df.rows.filter (fun r =>
      !(getCol r.cells "lat" == Cell.null) && !(getCol r.cells "lng" == Cell.null)) }

/-- Lines 190–191: `df_display = df_geo.head(limit)` with `limit = 2000`,
feeding the clustered point map. -/
def df_display (geo : Table) : Table :=
  { geo with rows := geo.rows.take 2000 }

/-- Line 175: the data handed to `HeatMap` — every geolocated row's
`[lat, lng, superficie]`, with no cap. -/
def datosHeatMap (geo : Table) : List (List Cell) :=
  geo.rows.map (fun r =>
    [getCol r.cells "lat", getCol r.cells "lng", getCol r.cells "superficie"])

/-- The translation tail of `cargar_datos` (lines 77–100): numeric coercion
followed by the three code-to-label translations. `normalizar` is this tail
after the date and rename steps. -/
def nucleoNormalizar (dic : Diccionarios) (df : Table) : Table :=
  pasoCausa dic (pasoProvincia dic (pasoComunidad dic (pasoNumerico df)))

/-! ## Concrete example tables -/

/-- The spec's normalization example: columns `Latitud,Longitud,Fecha,ha`, one
row `40.1,-3.6,2020-05-01,12.5` (numbers already parsed by `read_csv`). -/
def tC2 : Table :=
  { cols := ["Latitud", "Longitud", "Fecha", "ha"],
    rows := [{ cells := [("Latitud", Cell.num (mkRat 401 10)), ("Longitud", Cell.num (mkRat (-18) 5)),
                         ("Fecha", Cell.str "2020-05-01"), ("ha", Cell.num (mkRat 25 2))],
               tidx := none }],
    hasTimeIndex := false }

/-- What `cargar_datos`'s normalization actually produces on `tC2`: only the
date column is detected; `Latitud`/`Longitud`/`ha` keep their names. -/
def tC2Norm : Table :=
  { cols := ["Latitud", "Longitud", "Fecha", "ha",
             "nombre_comunidad", "nombre_provincia", "causa_texto"],
    rows := [{ cells := [("Latitud", Cell.num (mkRat 401 10)), ("Longitud", Cell.num (mkRat (-18) 5)),
                         ("Fecha", Cell.str "2020-05-01"), ("ha", Cell.num (mkRat 25 2)),
                         ("nombre_comunidad", Cell.str "N/A"),
                         ("nombre_provincia", Cell.str "N/A"),
                         ("causa_texto", Cell.str "Sin datos")],
               tidx := some 20200501 }],
    hasTimeIndex := true }

/-- A table with a null latitude in its only row. -/
def tC1 : Table :=
  { cols := ["lat", "lng"],
    rows := [{ cells := [("lat", Cell.null), ("lng", Cell.num 1)], tidx := none }],
    hasTimeIndex := false }

/-- A table with no cause column at all. -/
def tC3 : Table :=
  { cols := ["lat"],
    rows := [{ cells := [("lat", Cell.num 1)], tidx := none }],
    hasTimeIndex := false }

/-- An archive whose entries are a text file and a macOS metadata CSV: no
qualifying CSV entry. -/
def zipSinCsv : Archivo :=
  Archivo.zip [("leeme.txt", tablaVacia), ("__MACOSX/._datos.csv", tablaVacia)]

/-- A cause lookup with a single code. -/
def mC8 : List (Cell × String) := [(Cell.num 1, "Rayo")]

/-- Dictionaries carrying only the cause lookup. -/
def dicC8 : Diccionarios := ⟨none, none, some mC8⟩

/-- A table whose cause column has one mapped and one unmapped code. -/
def tC8 : Table :=
  { cols := ["causa"],
    rows := [{ cells := [("causa", Cell.num 1)], tidx := none },
             { cells := [("causa", Cell.num 99)], tidx := none }],
    hasTimeIndex := false }

/-- One fully geolocated row. -/
def filaGeo : Row :=
  { cells := [("lat", Cell.num 40), ("lng", Cell.num 0), ("superficie", Cell.num 2)],
    tidx := none }

/-- 2001 geolocated rows: above the display cap. -/
def tC9 : Table :=
  { cols := ["lat", "lng", "superficie"],
    rows := List.replicate 2001 filaGeo,
    hasTimeIndex := false }

/-- Two rows: one with a null burned area, one with `superficie = 5`. -/
def tC10 : Table :=
  { cols := ["superficie"],
    rows := [{ cells := [("superficie", Cell.null)], tidx := none },
             { cells := [("superficie", Cell.num 5)], tidx := none }],
    hasTimeIndex := false }

/-- The row of `tC10` that passes the filter. -/
def filaC10 : Row := { cells := [("superficie", Cell.num 5)], tidx := none }

/-- A table (dates out of order, one unparseable) for exercising the date step. -/
def tC7 : Table :=
  { cols := ["fecha", "lat"],
    rows := [{ cells := [("fecha", Cell.str "2020-05-02"), ("lat", Cell.num 1)], tidx := none },
             { cells := [("fecha", Cell.str "sin fecha"), ("lat", Cell.num 2)], tidx := none },
             { cells := [("fecha", Cell.str "2019-01-01"), ("lat", Cell.num 3)], tidx := none }],
    hasTimeIndex := false }


/-! ### Infrastructure for the idempotence analysis -/

/-- `g` reads only the columns in `ks`: it yields the same value on any two
rows that agree on those columns. -/
def LeeSolo (g : Celdas → Cell) (ks : List String) : Prop :=
  ∀ cs cs', (∀ k ∈ ks, getCol cs k = getCol cs' k) → g cs = g cs'

/-- Cell-level stage: writing `nombre_comunidad`. -/
def etapa2 (g₁ : Celdas → Cell) (cs1 : Celdas) : Celdas :=
  setCol cs1 "nombre_comunidad" (g₁ cs1)

/-- Cell-level stage: writing `nombre_provincia`. -/
def etapa3 (g₂ : Celdas → Cell) (cs2 : Celdas) : Celdas :=
  setCol cs2 "nombre_provincia" (g₂ cs2)

/-- Cell-level stage: writing `causa_texto`. -/
def etapa4 (g₃ : Celdas → Cell) (cs3 : Celdas) : Celdas :=
  setCol cs3 "causa_texto" (g₃ cs3)

/-- The full cell-level effect of the translation tail on one row: numeric
coercion then the three derived-column writes. -/
def pasadaCeldas (cols : List String) (g₁ g₂ g₃ : Celdas → Cell) (cs : Celdas) : Celdas :=
  etapa4 g₃ (etapa3 g₂ (etapa2 g₁ (colsNum.foldl (coerceCol cols) cs)))

/-- A table with two date-like columns (`fecha` and `date_fin`): after
normalization the leftover `date_fin` column is re-detected by a second
normalization pass, which re-indexes the table. -/
def tC5 : Table :=
  { cols := ["fecha", "date_fin", "lat"],
    rows := [{ cells := [("fecha", Cell.str "2020-01-02"), ("date_fin", Cell.str "2019-01-01"),
                         ("lat", Cell.num 40)], tidx := none }],
    hasTimeIndex := false }

/-- A table with a single date column named exactly `fecha`: after
normalization no date-like column remains. -/
def tW5 : Table :=
  { cols := ["fecha", "lat", "lng", "superficie"],
    rows := [{ cells := [("fecha", Cell.str "2020-01-02"), ("lat", Cell.num 40),
                         ("lng", Cell.null), ("superficie", Cell.str "12.5")], tidx := none },
             { cells := [("fecha", Cell.str "hoy"), ("lat", Cell.str "x"),
                         ("lng", Cell.num 1), ("superficie", Cell.null)], tidx := none }],
    hasTimeIndex := false }

/-! ## Basic lemmas about the row/column primitives -/

theorem getCol_setCol_self (cs : Celdas) (c : String) (v : Cell) :
    getCol (setCol cs c v) c = v := by
  induction cs with
  | nil => simp [setCol, getCol]
  | cons p r ih =>
    by_cases h : p.1 = c
    · simp [setCol, h, getCol]
    · simp [setCol, h, getCol, ih]

theorem getCol_setCol_ne (cs : Celdas) {c d : String} (v : Cell) (h : d ≠ c) :
    getCol (setCol cs c v) d = getCol cs d := by
  induction cs with
  | nil => simp [setCol, getCol, Ne.symm h]
  | cons p r ih =>
    by_cases hp : p.1 = c
    · simp [setCol, hp, getCol, Ne.symm h, hp ▸ Ne.symm h]
    · simp only [setCol, if_neg hp, getCol]
      by_cases hd : p.1 = d
      · simp [hd]
      · simp [hd, ih]

theorem tieneClave_setCol_self (cs : Celdas) (c : String) (v : Cell) :
    tieneClave (setCol cs c v) c = true := by
  induction cs with
  | nil => simp [setCol, tieneClave]
  | cons p r ih =>
    by_cases h : p.1 = c
    · simp [setCol, h, tieneClave]
    · simp [setCol, h, tieneClave, ih]

theorem tieneClave_setCol (cs : Celdas) {c : String} (d : String) (v : Cell)
    (h : tieneClave cs c = true) : tieneClave (setCol cs d v) c = true := by
  induction cs with
  | nil => simp [tieneClave] at h
  | cons p r ih =>
    simp only [tieneClave, Bool.or_eq_true, beq_iff_eq] at h
    simp only [setCol]
    by_cases hp : p.1 = d
    · rw [if_pos hp]
      simp only [tieneClave, Bool.or_eq_true, beq_iff_eq]
      rcases h with h | h
      · exact Or.inl (hp ▸ h)
      · exact Or.inr h
    · rw [if_neg hp]
      simp only [tieneClave, Bool.or_eq_true, beq_iff_eq]
      rcases h with h | h
      · exact Or.inl h
      · exact Or.inr (ih h)

theorem setCol_getCol_self (cs : Celdas) (c : String)
    (h : tieneClave cs c = true) : setCol cs c (getCol cs c) = cs := by
  induction cs with
  | nil => simp [tieneClave] at h
  | cons p r ih =>
    obtain ⟨a, b⟩ := p
    simp only [tieneClave, Bool.or_eq_true, beq_iff_eq] at h
    by_cases hp : a = c
    · simp [setCol, getCol, hp]
    · simp only [setCol, getCol] at hp ⊢
      rcases h with h | h
      · exact absurd h hp
      · simp [hp, ih h]

theorem fila_con_celdas (r : Row) : { r with cells := r.cells } = r := rfl

theorem toNumeric_idem (c : Cell) : toNumeric (toNumeric c) = toNumeric c := by
  cases c with
  | null => rfl
  | str s =>
    simp only [toNumeric]
    cases parseNum s <;> rfl
  | num q => rfl
  | date d => rfl

theorem addCol_contains_self (cols : List String) (c : String) :
    (addCol cols c).contains c = true := by
  unfold addCol
  by_cases h : cols.contains c = true
  · rw [if_pos h]
    exact h
  · rw [if_neg h]
    exact List.elem_iff.mpr (List.mem_append_right _ (List.mem_singleton_self c))

theorem addCol_contains_ne (cols : List String) {c d : String} (h : d ≠ c) :
    (addCol cols c).contains d = cols.contains d := by
  unfold addCol
  by_cases hc : cols.contains c = true
  · rw [if_pos hc]
  · rw [if_neg hc]
    rcases hm : cols.contains d with _ | _
    · have hd : ¬ d ∈ cols := fun hmem => by
        have h2 : cols.contains d = true := List.elem_iff.mpr hmem
        rw [h2] at hm
        exact Bool.noConfusion hm
      refine Bool.eq_false_iff.mpr (fun hh => ?_)
      rcases List.mem_append.mp (List.elem_iff.mp hh) with h1 | h1
      · exact hd h1
      · exact h (List.mem_singleton.mp h1)
    · exact List.elem_iff.mpr (List.mem_append_left _ (List.elem_iff.mp hm))

theorem addCol_de_contains (cols : List String) (c : String)
    (h : cols.contains c = true) : addCol cols c = cols := by
  unfold addCol
  rw [if_pos h]

theorem contains_filter_false {l : List String} {p : String → Bool} {c : String}
    (h : l.contains c = false) : (l.filter p).contains c = false := by
  have hc : ¬ c ∈ l := fun hmem => by
    have h2 : l.contains c = true := List.elem_iff.mpr hmem
    rw [h2] at h
    exact Bool.noConfusion h
  exact Bool.eq_false_iff.mpr
    (fun hh => hc (List.mem_of_mem_filter (List.elem_iff.mp hh)))

theorem coerceCol_pos {cols : List String} {cs : Celdas} {c : String}
    (h : cols.contains c = true) :
    coerceCol cols cs c = setCol cs c (toNumeric (getCol cs c)) := by
  unfold coerceCol
  rw [if_pos h]

theorem coerceCol_neg {cols : List String} {cs : Celdas} {c : String}
    (h : cols.contains c = false) : coerceCol cols cs c = cs := by
  unfold coerceCol
  rw [if_neg (fun hh => Bool.noConfusion (h.symm.trans hh))]

theorem foldl_fijo {α : Type} {β : Type} (f : α → β → α) (L : List β) (x : α)
    (h : ∀ b ∈ L, f x b = x) : L.foldl f x = x := by
  induction L with
  | nil => rfl
  | cons b L ih =>
    simp only [List.foldl_cons, h b (List.mem_cons_self b L)]
    exact ih (fun d hd => h d (List.mem_cons_of_mem b hd))

theorem getCol_foldl_coerce (L : List String) (cols : List String) (cs : Celdas)
    {c : String} (h : ¬ c ∈ L) :
    getCol (L.foldl (coerceCol cols) cs) c = getCol cs c := by
  induction L generalizing cs with
  | nil => rfl
  | cons d L ih =>
    have hd : c ≠ d := fun hh => h (hh ▸ List.mem_cons_self d L)
    have hL : ¬ c ∈ L := fun hh => h (List.mem_cons_of_mem d hh)
    simp only [List.foldl_cons]
    rw [ih _ hL]
    rcases hcc : cols.contains d with _ | _
    · rw [coerceCol_neg hcc]
    · rw [coerceCol_pos hcc]
      exact getCol_setCol_ne cs _ hd

theorem tieneClave_foldl_coerce (L : List String) (cols : List String) (cs : Celdas)
    {c : String} (h : tieneClave cs c = true) :
    tieneClave (L.foldl (coerceCol cols) cs) c = true := by
  induction L generalizing cs with
  | nil => exact h
  | cons d L ih =>
    simp only [List.foldl_cons]
    apply ih
    rcases hcc : cols.contains d with _ | _
    · rw [coerceCol_neg hcc]
      exact h
    · rw [coerceCol_pos hcc]
      exact tieneClave_setCol cs d _ h

theorem coerce_establece (L : List String) (cols : List String) (cs : Celdas)
    {c : String} (hc : c ∈ L) (hcols : cols.contains c = true) :
    tieneClave (L.foldl (coerceCol cols) cs) c = true ∧
      ∃ v, getCol (L.foldl (coerceCol cols) cs) c = toNumeric v := by
  induction L generalizing cs with
  | nil => cases hc
  | cons d L ih =>
    by_cases hmem : c ∈ L
    · exact ih _ hmem
    · have hcd : c = d := by
        rcases List.mem_cons.mp hc with h | h
        · exact h
        · exact absurd h hmem
      subst hcd
      simp only [List.foldl_cons]
      rw [coerceCol_pos hcols]
      refine ⟨tieneClave_foldl_coerce _ _ _ (tieneClave_setCol_self _ _ _), ?_⟩
      refine ⟨getCol cs c, ?_⟩
      rw [getCol_foldl_coerce _ _ _ hmem, getCol_setCol_self]

theorem aplicaRenombra_id (c : String) : aplicaRenombra c = c := by
  by_cases h1 : c = "lat"
  · subst h1
    rfl
  · by_cases h2 : c = "lng"
    · subst h2
      rfl
    · have hb1 : (("lat" : String) == c) = false := by
        rw [beq_eq_false_iff_ne]
        exact fun hh => h1 hh.symm
      have hb2 : (("lng" : String) == c) = false := by
        rw [beq_eq_false_iff_ne]
        exact fun hh => h2 hh.symm
      unfold aplicaRenombra renombraMapa
      simp [List.find?, hb1, hb2]

theorem pasoRename_id (df : Table) : pasoRename df = df := by
  have hf : aplicaRenombra = fun c => c := funext aplicaRenombra_id
  unfold pasoRename
  rw [hf]
  have hcols : df.cols.map (fun c => c) = df.cols := List.map_id' df.cols
  have hrow : (fun r : Row =>
      { r with cells := r.cells.map (fun p => ((fun c => c) p.1, p.2)) }) = fun r : Row => r := by
    funext r
    have h2 : r.cells.map (fun p : String × Cell => (p.1, p.2)) = r.cells := List.map_id' r.cells
    show { r with cells := r.cells.map (fun p : String × Cell => (p.1, p.2)) } = r
    rw [h2]
  rw [hcols, hrow, List.map_id' df.rows]

theorem map_id_de_mem {α : Type} {l : List α} {f : α → α}
    (h : ∀ a ∈ l, f a = a) : l.map f = l := by
  induction l with
  | nil => rfl
  | cons x l ih =>
    rw [List.map_cons, h x (List.mem_cons_self x l),
      ih (fun a ha => h a (List.mem_cons_of_mem x ha))]

theorem map_const_replicate {α β : Type} (l : List α) (b : β) :
    l.map (fun _ => b) = List.replicate l.length b := by
  induction l with
  | nil => rfl
  | cons x l ih => rw [List.map_cons, List.length_cons, List.replicate_succ, ih]

theorem find?_primera {α : Type} (p : α → Bool) :
    ∀ (l : List α) (a : α), l.find? p = some a →
      a ∈ l ∧ p a = true ∧ ∃ pre suf, l = pre ++ a :: suf ∧ ∀ d ∈ pre, p d = false := by
  intro l
  induction l with
  | nil => intro a h; cases h
  | cons x l ih =>
    intro a h
    rcases hx : p x with _ | _
    · rw [List.find?_cons_of_neg _ (by rw [hx]; exact Bool.noConfusion)] at h
      obtain ⟨hmem, hpa, pre, suf, heq, hpre⟩ := ih a h
      refine ⟨List.mem_cons_of_mem x hmem, hpa, x :: pre, suf,
        by rw [heq]; exact (List.cons_append x pre (a :: suf)).symm, ?_⟩
      intro d hd
      rcases List.mem_cons.mp hd with hd | hd
      · rw [hd, hx]
      · exact hpre d hd
    · rw [List.find?_cons_of_pos _ hx] at h
      injection h with h
      subst h
      exact ⟨List.mem_cons_self x l, hx, [], l, rfl, fun d hd => absurd hd (List.not_mem_nil d)⟩

theorem ponColumna_getCol (df : Table) (c : String) (f : Celdas → Cell) :
    (ponColumna df c f).rows.map (fun r => getCol r.cells c)
      = df.rows.map (fun r => f r.cells) := by
  unfold ponColumna filaPon
  rw [List.map_map]
  exact List.map_congr_left (fun r _ => getCol_setCol_self r.cells c (f r.cells))

theorem pasoComunidad_cols (dic : Diccionarios) (X : Table) :
    (pasoComunidad dic X).cols = addCol X.cols "nombre_comunidad" := by
  unfold pasoComunidad
  rcases hdc : dic.comunidades with _ | m
  · rfl
  · dsimp only
    by_cases hc : X.cols.contains "idcomunidad" = true
    · rw [if_pos hc]
      rfl
    · rw [if_neg hc]
      rfl

theorem pasoProvincia_cols (dic : Diccionarios) (X : Table) :
    (pasoProvincia dic X).cols = addCol X.cols "nombre_provincia" := by
  unfold pasoProvincia
  rcases hdc : dic.provincias with _ | m
  · rfl
  · dsimp only
    by_cases hc : X.cols.contains "idprovincia" = true
    · rw [if_pos hc]
      rfl
    · rw [if_neg hc]
      rfl

theorem pasoCausa_sin_causa (dic : Diccionarios) (X : Table)
    (h1 : X.cols.contains "causa" = false) (h2 : X.cols.contains "idcausa" = false) :
    pasoCausa dic X = ponColumna X "causa_texto" (fun _ => Cell.str "Sin datos") := by
  have hcc : colCausa X.cols = "idcausa" := by
    unfold colCausa
    rw [if_neg (fun hh => Bool.noConfusion (h1.symm.trans hh))]
  unfold pasoCausa
  rw [hcc]
  rcases hdc : dic.causas with _ | m
  · rfl
  · dsimp only
    rw [if_neg (fun hh => Bool.noConfusion (h2.symm.trans hh))]

theorem pasoFecha_cols (df : Table) :
    (pasoFecha df).cols = df.cols ∨ (pasoFecha df).cols = quitaFecha df.cols := by
  unfold pasoFecha
  rcases hdet : colFechaDetect df.cols with _ | cf
  · exact Or.inl rfl
  · exact Or.inr rfl

/-! ## Idempotence analysis of the translation tail -/

theorem foldl_coerce_congr (L : List String) (cols cols' : List String) (cs : Celdas)
    (h : ∀ c ∈ L, cols.contains c = cols'.contains c) :
    L.foldl (coerceCol cols) cs = L.foldl (coerceCol cols') cs := by
  induction L generalizing cs with
  | nil => rfl
  | cons d L ih =>
    simp only [List.foldl_cons]
    have hstep : coerceCol cols cs d = coerceCol cols' cs d := by
      unfold coerceCol
      rw [h d (List.mem_cons_self d L)]
    rw [hstep]
    exact ih _ (fun c hc => h c (List.mem_cons_of_mem d hc))

theorem pasadaCeldas_congr (cols cols' : List String) (g₁ g₂ g₃ : Celdas → Cell) (cs : Celdas)
    (h : ∀ c ∈ colsNum, cols.contains c = cols'.contains c) :
    pasadaCeldas cols g₁ g₂ g₃ cs = pasadaCeldas cols' g₁ g₂ g₃ cs := by
  unfold pasadaCeldas
  rw [foldl_coerce_congr colsNum cols cols' cs h]

theorem pasoComunidad_forma (dic : Diccionarios) (b : Bool) :
    ∃ g, LeeSolo g ["idcomunidad"] ∧
      ∀ X : Table, X.cols.contains "idcomunidad" = b →
        pasoComunidad dic X = ponColumna X "nombre_comunidad" g := by
  rcases hdc : dic.comunidades with _ | m
  · refine ⟨fun _ => Cell.str "N/A", fun _ _ _ => rfl, fun X hX => ?_⟩
    unfold pasoComunidad
    rw [hdc]
  · rcases b with _ | _
    · refine ⟨fun _ => Cell.str "N/A", fun _ _ _ => rfl, fun X hX => ?_⟩
      unfold pasoComunidad
      rw [hdc]
      dsimp only
      rw [if_neg (fun hh => Bool.noConfusion (hX.symm.trans hh))]
    · refine ⟨fun cs => etiqueta m (getCol cs "idcomunidad") "Desconocido", ?_, fun X hX => ?_⟩
      · intro cs cs' hk
        dsimp only
        rw [hk "idcomunidad" (List.mem_singleton_self _)]
      · unfold pasoComunidad
        rw [hdc]
        dsimp only
        rw [if_pos hX]

theorem pasoProvincia_forma (dic : Diccionarios) (b : Bool) :
    ∃ g, LeeSolo g ["idprovincia"] ∧
      ∀ X : Table, X.cols.contains "idprovincia" = b →
        pasoProvincia dic X = ponColumna X "nombre_provincia" g := by
  rcases hdc : dic.provincias with _ | m
  · refine ⟨fun _ => Cell.str "N/A", fun _ _ _ => rfl, fun X hX => ?_⟩
    unfold pasoProvincia
    rw [hdc]
  · rcases b with _ | _
    · refine ⟨fun _ => Cell.str "N/A", fun _ _ _ => rfl, fun X hX => ?_⟩
      unfold pasoProvincia
      rw [hdc]
      dsimp only
      rw [if_neg (fun hh => Bool.noConfusion (hX.symm.trans hh))]
    · refine ⟨fun cs => etiqueta m (getCol cs "idprovincia") "Desconocido", ?_, fun X hX => ?_⟩
      · intro cs cs' hk
        dsimp only
        rw [hk "idprovincia" (List.mem_singleton_self _)]
      · unfold pasoProvincia
        rw [hdc]
        dsimp only
        rw [if_pos hX]

theorem pasoCausa_forma (dic : Diccionarios) (bc bi : Bool) :
    ∃ g, LeeSolo g ["causa", "idcausa"] ∧
      ∀ X : Table, X.cols.contains "causa" = bc → X.cols.contains "idcausa" = bi →
        pasoCausa dic X = ponColumna X "causa_texto" g := by
  rcases hdc : dic.causas with _ | m
  · refine ⟨fun _ => Cell.str "Sin datos", fun _ _ _ => rfl, fun X h1 h2 => ?_⟩
    unfold pasoCausa
    rw [hdc]
  · rcases bc with _ | _
    · rcases bi with _ | _
      · refine ⟨fun _ => Cell.str "Sin datos", fun _ _ _ => rfl, fun X h1 h2 => ?_⟩
        have hcc : colCausa X.cols = "idcausa" := by
          unfold colCausa
          rw [if_neg (fun hh => Bool.noConfusion (h1.symm.trans hh))]
        unfold pasoCausa
        rw [hdc]
        dsimp only
        rw [hcc, if_neg (fun hh => Bool.noConfusion (h2.symm.trans hh))]
      · refine ⟨fun cs => etiqueta m (getCol cs "idcausa") "No especificado", ?_, fun X h1 h2 => ?_⟩
        · intro cs cs' hk
          dsimp only
          rw [hk "idcausa" (by decide)]
        · have hcc : colCausa X.cols = "idcausa" := by
            unfold colCausa
            rw [if_neg (fun hh => Bool.noConfusion (h1.symm.trans hh))]
          unfold pasoCausa
          rw [hdc]
          dsimp only
          rw [hcc, if_pos h2]
    · refine ⟨fun cs => etiqueta m (getCol cs "causa") "No especificado", ?_, fun X h1 h2 => ?_⟩
      · intro cs cs' hk
        dsimp only
        rw [hk "causa" (by decide)]
      · have hcc : colCausa X.cols = "causa" := by
          unfold colCausa
          rw [if_pos h1]
        unfold pasoCausa
        rw [hdc]
        dsimp only
        rw [hcc, if_pos h1]

theorem nucleo_forma (dic : Diccionarios) (b1 b2 bc bi : Bool) :
    ∃ g₁ g₂ g₃, LeeSolo g₁ ["idcomunidad"] ∧ LeeSolo g₂ ["idprovincia"] ∧
      LeeSolo g₃ ["causa", "idcausa"] ∧
      ∀ X : Table,
        X.cols.contains "idcomunidad" = b1 →
        X.cols.contains "idprovincia" = b2 →
        X.cols.contains "causa" = bc →
        X.cols.contains "idcausa" = bi →
        nucleoNormalizar dic X =
          { cols := addCol (addCol (addCol X.cols "nombre_comunidad") "nombre_provincia")
              "causa_texto",
            rows := X.rows.map (fun r =>
              { cells := pasadaCeldas X.cols g₁ g₂ g₃ r.cells, tidx := r.tidx }),
            hasTimeIndex := X.hasTimeIndex } := by
  obtain ⟨g₁, hg₁, hcom⟩ := pasoComunidad_forma dic b1
  obtain ⟨g₂, hg₂, hprov⟩ := pasoProvincia_forma dic b2
  obtain ⟨g₃, hg₃, hcau⟩ := pasoCausa_forma dic bc bi
  refine ⟨g₁, g₂, g₃, hg₁, hg₂, hg₃, fun X h1 h2 h3 h4 => ?_⟩
  have s1 : nucleoNormalizar dic X
      = pasoCausa dic (pasoProvincia dic (pasoComunidad dic (pasoNumerico X))) := rfl
  rw [s1, hcom (pasoNumerico X) h1]
  have hc2 : (ponColumna (pasoNumerico X) "nombre_comunidad" g₁).cols.contains "idprovincia"
      = b2 := by
    show (addCol X.cols "nombre_comunidad").contains "idprovincia" = b2
    rw [addCol_contains_ne _ (by decide)]
    exact h2
  rw [hprov _ hc2]
  have hc3 : (ponColumna (ponColumna (pasoNumerico X) "nombre_comunidad" g₁)
      "nombre_provincia" g₂).cols.contains "causa" = bc := by
    show ((addCol (addCol X.cols "nombre_comunidad") "nombre_provincia")).contains "causa" = bc
    rw [addCol_contains_ne _ (by decide), addCol_contains_ne _ (by decide)]
    exact h3
  have hc4 : (ponColumna (ponColumna (pasoNumerico X) "nombre_comunidad" g₁)
      "nombre_provincia" g₂).cols.contains "idcausa" = bi := by
    show ((addCol (addCol X.cols "nombre_comunidad") "nombre_provincia")).contains "idcausa" = bi
    rw [addCol_contains_ne _ (by decide), addCol_contains_ne _ (by decide)]
    exact h4
  rw [hcau _ hc3 hc4]
  rcases X with ⟨cols, rows, flag⟩
  simp only [ponColumna, pasoNumerico, Table.mk.injEq, List.map_map, true_and, and_true]
  rfl

theorem pasada_fija_abs (cols : List String) (g₁ g₂ g₃ : Celdas → Cell)
    (hg₁ : LeeSolo g₁ ["idcomunidad"]) (hg₂ : LeeSolo g₂ ["idprovincia"])
    (hg₃ : LeeSolo g₃ ["causa", "idcausa"]) (cs1 : Celdas)
    (hfix : ∀ c ∈ colsNum, cols.contains c = true →
      tieneClave cs1 c = true ∧ ∃ v, getCol cs1 c = toNumeric v) :
    pasadaCeldas cols g₁ g₂ g₃ (etapa4 g₃ (etapa3 g₂ (etapa2 g₁ cs1)))
      = etapa4 g₃ (etapa3 g₂ (etapa2 g₁ cs1)) := by
  set cs2 := etapa2 g₁ cs1 with hcs2
  set cs3 := etapa3 g₂ cs2 with hcs3
  set cs4 := etapa4 g₃ cs3 with hcs4
  have hid1 : getCol cs4 "idcomunidad" = getCol cs1 "idcomunidad" := by
    rw [hcs4, hcs3, hcs2]
    unfold etapa4 etapa3 etapa2
    rw [getCol_setCol_ne _ _ (by decide), getCol_setCol_ne _ _ (by decide),
      getCol_setCol_ne _ _ (by decide)]
  have hnc : getCol cs4 "nombre_comunidad" = g₁ cs1 := by
    rw [hcs4, hcs3]
    unfold etapa4 etapa3
    rw [getCol_setCol_ne _ _ (by decide), getCol_setCol_ne _ _ (by decide), hcs2]
    unfold etapa2
    exact getCol_setCol_self _ _ _
  have hnp : getCol cs4 "nombre_provincia" = g₂ cs2 := by
    rw [hcs4]
    unfold etapa4
    rw [getCol_setCol_ne _ _ (by decide), hcs3]
    unfold etapa3
    exact getCol_setCol_self _ _ _
  have hct : getCol cs4 "causa_texto" = g₃ cs3 := by
    rw [hcs4]
    unfold etapa4
    exact getCol_setCol_self _ _ _
  have hkeys : ∀ c, tieneClave cs1 c = true → tieneClave cs4 c = true := by
    intro c h
    rw [hcs4, hcs3, hcs2]
    unfold etapa4 etapa3 etapa2
    exact tieneClave_setCol _ _ _ (tieneClave_setCol _ _ _ (tieneClave_setCol _ _ _ h))
  have hknc : tieneClave cs4 "nombre_comunidad" = true := by
    rw [hcs4, hcs3]
    unfold etapa4 etapa3
    refine tieneClave_setCol _ _ _ (tieneClave_setCol _ _ _ ?_)
    rw [hcs2]
    unfold etapa2
    exact tieneClave_setCol_self _ _ _
  have hknp : tieneClave cs4 "nombre_provincia" = true := by
    rw [hcs4]
    unfold etapa4
    refine tieneClave_setCol _ _ _ ?_
    rw [hcs3]
    unfold etapa3
    exact tieneClave_setCol_self _ _ _
  have hkct : tieneClave cs4 "causa_texto" = true := by
    rw [hcs4]
    unfold etapa4
    exact tieneClave_setCol_self _ _ _
  have hnum : colsNum.foldl (coerceCol cols) cs4 = cs4 := by
    apply foldl_fijo
    intro c hc
    obtain ⟨hne1, hne2, hne3⟩ :
        c ≠ "nombre_comunidad" ∧ c ≠ "nombre_provincia" ∧ c ≠ "causa_texto" :=
      (by decide : ∀ c ∈ colsNum,
        c ≠ "nombre_comunidad" ∧ c ≠ "nombre_provincia" ∧ c ≠ "causa_texto") c hc
    rcases hcol : cols.contains c with _ | _
    · rw [coerceCol_neg hcol]
    · rw [coerceCol_pos hcol]
      obtain ⟨hk1, v, hv⟩ := hfix c hc hcol
      have hgc : getCol cs4 c = getCol cs1 c := by
        rw [hcs4, hcs3, hcs2]
        unfold etapa4 etapa3 etapa2
        rw [getCol_setCol_ne _ _ hne3, getCol_setCol_ne _ _ hne2, getCol_setCol_ne _ _ hne1]
      rw [hgc, hv, toNumeric_idem, ← hv, ← hgc]
      exact setCol_getCol_self _ _ (hkeys c hk1)
  show etapa4 g₃ (etapa3 g₂ (etapa2 g₁ (colsNum.foldl (coerceCol cols) cs4))) = cs4
  rw [hnum]
  have e2 : etapa2 g₁ cs4 = cs4 := by
    unfold etapa2
    have hgg : g₁ cs4 = g₁ cs1 := by
      apply hg₁
      intro k hk
      simp only [List.mem_singleton] at hk
      subst hk
      exact hid1
    rw [hgg, ← hnc]
    exact setCol_getCol_self _ _ hknc
  rw [e2]
  have hidp : getCol cs4 "idprovincia" = getCol cs2 "idprovincia" := by
    rw [hcs4, hcs3]
    unfold etapa4 etapa3
    rw [getCol_setCol_ne _ _ (by decide), getCol_setCol_ne _ _ (by decide)]
  have e3 : etapa3 g₂ cs4 = cs4 := by
    unfold etapa3
    have hgg : g₂ cs4 = g₂ cs2 := by
      apply hg₂
      intro k hk
      simp only [List.mem_singleton] at hk
      subst hk
      exact hidp
    rw [hgg, ← hnp]
    exact setCol_getCol_self _ _ hknp
  rw [e3]
  have hcau : getCol cs4 "causa" = getCol cs3 "causa" := by
    rw [hcs4]
    unfold etapa4
    exact getCol_setCol_ne _ _ (by decide)
  have hicau : getCol cs4 "idcausa" = getCol cs3 "idcausa" := by
    rw [hcs4]
    unfold etapa4
    exact getCol_setCol_ne _ _ (by decide)
  have e4 : etapa4 g₃ cs4 = cs4 := by
    unfold etapa4
    have hgg : g₃ cs4 = g₃ cs3 := by
      apply hg₃
      intro k hk
      rcases List.mem_cons.mp hk with hk1 | hk1
      · subst hk1
        exact hcau
      · simp only [List.mem_singleton] at hk1
        subst hk1
        exact hicau
    rw [hgg, ← hct]
    exact setCol_getCol_self _ _ hkct
  exact e4

theorem pasadaCeldas_fija (cols : List String) (g₁ g₂ g₃ : Celdas → Cell)
    (hg₁ : LeeSolo g₁ ["idcomunidad"]) (hg₂ : LeeSolo g₂ ["idprovincia"])
    (hg₃ : LeeSolo g₃ ["causa", "idcausa"]) (cs0 : Celdas) :
    pasadaCeldas cols g₁ g₂ g₃ (pasadaCeldas cols g₁ g₂ g₃ cs0)
      = pasadaCeldas cols g₁ g₂ g₃ cs0 :=
  pasada_fija_abs cols g₁ g₂ g₃ hg₁ hg₂ hg₃ (colsNum.foldl (coerceCol cols) cs0)
    (fun c hc hcol => coerce_establece colsNum cols cs0 hc hcol)

theorem nucleo_idem (dic : Diccionarios) (X : Table) :
    nucleoNormalizar dic (nucleoNormalizar dic X) = nucleoNormalizar dic X := by
  obtain ⟨g₁, g₂, g₃, hg₁, hg₂, hg₃, hforma⟩ :=
    nucleo_forma dic (X.cols.contains "idcomunidad") (X.cols.contains "idprovincia")
      (X.cols.contains "causa") (X.cols.contains "idcausa")
  have hX := hforma X rfl rfl rfl rfl
  have hyc : (nucleoNormalizar dic X).cols
      = addCol (addCol (addCol X.cols "nombre_comunidad") "nombre_provincia") "causa_texto" := by
    rw [hX]
  have hb1 : (nucleoNormalizar dic X).cols.contains "idcomunidad"
      = X.cols.contains "idcomunidad" := by
    rw [hyc, addCol_contains_ne _ (by decide), addCol_contains_ne _ (by decide),
      addCol_contains_ne _ (by decide)]
  have hb2 : (nucleoNormalizar dic X).cols.contains "idprovincia"
      = X.cols.contains "idprovincia" := by
    rw [hyc, addCol_contains_ne _ (by decide), addCol_contains_ne _ (by decide),
      addCol_contains_ne _ (by decide)]
  have hbc : (nucleoNormalizar dic X).cols.contains "causa" = X.cols.contains "causa" := by
    rw [hyc, addCol_contains_ne _ (by decide), addCol_contains_ne _ (by decide),
      addCol_contains_ne _ (by decide)]
  have hbi : (nucleoNormalizar dic X).cols.contains "idcausa" = X.cols.contains "idcausa" := by
    rw [hyc, addCol_contains_ne _ (by decide), addCol_contains_ne _ (by decide),
      addCol_contains_ne _ (by decide)]
  have hY := hforma (nucleoNormalizar dic X) hb1 hb2 hbc hbi
  rw [hY]
  have c1 : (nucleoNormalizar dic X).cols.contains "nombre_comunidad" = true := by
    rw [hyc, addCol_contains_ne _ (by decide), addCol_contains_ne _ (by decide)]
    exact addCol_contains_self _ _
  have c2 : (nucleoNormalizar dic X).cols.contains "nombre_provincia" = true := by
    rw [hyc, addCol_contains_ne _ (by decide)]
    exact addCol_contains_self _ _
  have c3 : (nucleoNormalizar dic X).cols.contains "causa_texto" = true := by
    rw [hyc]
    exact addCol_contains_self _ _
  have hcols : addCol (addCol (addCol (nucleoNormalizar dic X).cols "nombre_comunidad")
      "nombre_provincia") "causa_texto" = (nucleoNormalizar dic X).cols := by
    rw [addCol_de_contains _ _ c1, addCol_de_contains _ _ c2, addCol_de_contains _ _ c3]
  have hcolsnum : ∀ c ∈ colsNum,
      (nucleoNormalizar dic X).cols.contains c = X.cols.contains c := by
    intro c hc
    obtain ⟨hne1, hne2, hne3⟩ :
        c ≠ "nombre_comunidad" ∧ c ≠ "nombre_provincia" ∧ c ≠ "causa_texto" :=
      (by decide : ∀ c ∈ colsNum,
        c ≠ "nombre_comunidad" ∧ c ≠ "nombre_provincia" ∧ c ≠ "causa_texto") c hc
    rw [hyc, addCol_contains_ne _ hne3, addCol_contains_ne _ hne2, addCol_contains_ne _ hne1]
  have hrows : (nucleoNormalizar dic X).rows.map (fun r =>
      { cells := pasadaCeldas (nucleoNormalizar dic X).cols g₁ g₂ g₃ r.cells,
        tidx := r.tidx : Row })
      = (nucleoNormalizar dic X).rows := by
    apply map_id_de_mem
    intro r hr
    rw [hX] at hr
    simp only [List.mem_map] at hr
    obtain ⟨x, hx, rfl⟩ := hr
    dsimp only
    rw [pasadaCeldas_congr _ _ g₁ g₂ g₃ _ hcolsnum,
      pasadaCeldas_fija X.cols g₁ g₂ g₃ hg₁ hg₂ hg₃ x.cells]
  rw [hcols, hrows]

/-- Running `normalizar` on a table in which no date-like column is detected
reduces to the translation tail (the date step does nothing and the rename is
the identity). -/
theorem normalizar_sin_fecha (dic : Diccionarios) (Z : Table)
    (h : colFechaDetect Z.cols = none) : normalizar dic Z = nucleoNormalizar dic Z := by
  have hf : pasoFecha Z = Z := by
    unfold pasoFecha
    rw [h]
  show pasoCausa dic (pasoProvincia dic (pasoComunidad dic (pasoNumerico (pasoRename (pasoFecha Z)))))
    = nucleoNormalizar dic Z
  rw [hf, pasoRename_id]
  rfl

/-! ## Claim theorems -/

/-- C1, counterexample: `cargar_datos`'s normalization does NOT drop the row
whose `lat` is null — the normalized output of `tC1` still contains it, so
the normalized table can contain rows with null coordinates. -/
theorem c1_contraejemplo :
    (normalizar dicVacio tC1).rows.map (fun r => getCol r.cells "lat") = [Cell.null] ∧
    (normalizar dicVacio tC1).rows.length = 1 := by
  constructor <;> decide

/-- C1, amended: rows with null `lat` or `lng` are dropped downstream, at
`df_geo = df_filtrado.dropna(subset=['lat','lng'])` (line 164): every row of
the geolocated view has non-null `lat` and `lng`. -/
theorem c1_geo_sin_nulos (df : Table) :
    ((df_geo df).rows.all (fun r =>
      !(getCol r.cells "lat" == Cell.null) && !(getCol r.cells "lng" == Cell.null))) = true := by
  unfold df_geo
  exact List.all_eq_true.mpr (fun r hr => (List.mem_filter.mp hr).2)

/-- C2, counterexample: on the spec's example input the normalized table has
no `lat`, `lng` or `superficie` column at all — the variant names
`Latitud`/`Longitud`/`ha` are not resolved (the rename at line 76 is the
identity mapping). -/
theorem c2_contraejemplo :
    (normalizar dicVacio tC2).cols.contains "lat" = false ∧
    (normalizar dicVacio tC2).cols.contains "lng" = false ∧
    (normalizar dicVacio tC2).cols.contains "superficie" = false := by
  refine ⟨?_, ?_, ?_⟩ <;> decide

/-- C2, amended: normalization resolves only the date column (case-insensitive
substring match on `fecha`/`date`); on the example the row keeps
`Latitud = 40.1`, `Longitud = -3.6`, `ha = 12.5`, gets time index `2020-05-01`
and the synthesized columns `nombre_comunidad = nombre_provincia = "N/A"`,
`causa_texto = "Sin datos"`. -/
theorem c2_normalizado : normalizar dicVacio tC2 = tC2Norm := by
  decide

/-- C3, counterexample: with no detectable cause column the synthesized
constant is `"Sin datos"`, not `"Desconocida"`. -/
theorem c3_contraejemplo :
    (normalizar dicVacio tC3).rows.map (fun r => getCol r.cells "causa_texto")
      = [Cell.str "Sin datos"] ∧
    Cell.str "Sin datos" ≠ Cell.str "Desconocida" := by
  constructor <;> decide

/-- C3, amended: if neither `causa` nor `idcausa` is a column of the input,
every row of the normalized output has `causa_texto = "Sin datos"`. -/
theorem c3_causa_por_defecto (dic : Diccionarios) (df : Table)
    (h1 : df.cols.contains "causa" = false)
    (h2 : df.cols.contains "idcausa" = false) :
    (normalizar dic df).rows.map (fun r => getCol r.cells "causa_texto")
      = List.replicate (normalizar dic df).rows.length (Cell.str "Sin datos") := by
  have hf1 : (pasoFecha df).cols.contains "causa" = false := by
    rcases pasoFecha_cols df with h | h
    · rw [h]; exact h1
    · rw [h]; exact contains_filter_false h1
  have hf2 : (pasoFecha df).cols.contains "idcausa" = false := by
    rcases pasoFecha_cols df with h | h
    · rw [h]; exact h2
    · rw [h]; exact contains_filter_false h2
  set X₃ := pasoProvincia dic (pasoComunidad dic (pasoNumerico (pasoRename (pasoFecha df)))) with hX₃
  have hc1 : X₃.cols.contains "causa" = false := by
    rw [hX₃, pasoProvincia_cols, addCol_contains_ne _ (by decide),
      pasoComunidad_cols, addCol_contains_ne _ (by decide)]
    rw [pasoRename_id]
    exact hf1
  have hc2 : X₃.cols.contains "idcausa" = false := by
    rw [hX₃, pasoProvincia_cols, addCol_contains_ne _ (by decide),
      pasoComunidad_cols, addCol_contains_ne _ (by decide)]
    rw [pasoRename_id]
    exact hf2
  show (pasoCausa dic X₃).rows.map (fun r => getCol r.cells "causa_texto")
    = List.replicate (pasoCausa dic X₃).rows.length (Cell.str "Sin datos")
  rw [pasoCausa_sin_causa dic X₃ hc1 hc2, ponColumna_getCol, map_const_replicate]
  have hlen : (ponColumna X₃ "causa_texto" (fun _ => Cell.str "Sin datos")).rows.length
      = X₃.rows.length := List.length_map _ _
  rw [hlen]

/-- C3, witness: the amended theorem applied to the concrete table `tC3`,
which has no cause column. -/
theorem c3_testigo :
    (normalizar dicVacio tC3).rows.map (fun r => getCol r.cells "causa_texto")
      = List.replicate (normalizar dicVacio tC3).rows.length (Cell.str "Sin datos") :=
  c3_causa_por_defecto dicVacio tC3 (by decide) (by decide)

/-- C4, counterexample: the code's date-column detector is case-insensitive
substring matching over the table's columns, not exact case-sensitive
candidate matching — it finds `"FECHA"` although neither candidate `fecha` nor
`date` is present as an exact string. -/
theorem c4_contraejemplo :
    colFechaDetect ["FECHA"] = some "FECHA" ∧
    detectorSpec ["FECHA"] ["fecha", "date"] = none := by
  constructor <;> decide

/-- C4, amended: the code has one fixed detector (for the date column only);
it scans the table's columns in schema order and returns the first whose
lowercased name contains `fecha` or `date` as a substring — so the match found
is a column of the table satisfying the substring test and every earlier
column fails it — and it returns a not-found signal exactly when no column
passes the test. -/
theorem c4_detector_codigo (cols : List String) (c : String) :
    (colFechaDetect cols = some c →
      c ∈ cols ∧ esNombreFecha c = true ∧
      ∃ pre suf, cols = pre ++ c :: suf ∧ ∀ d ∈ pre, esNombreFecha d = false) ∧
    (colFechaDetect cols = none → ∀ d ∈ cols, esNombreFecha d = false) := by
  constructor
  · intro h
    exact find?_primera esNombreFecha cols c h
  · intro h d hd
    have hnp := List.find?_eq_none.mp h d hd
    exact Bool.eq_false_iff.mpr hnp

/-- C4, witness: the amended detector characterization at the concrete schema
`["Año", "Fecha"]`. -/
theorem c4_testigo :
    "Fecha" ∈ ["Año", "Fecha"] ∧ esNombreFecha "Fecha" = true ∧
      ∃ pre suf, ["Año", "Fecha"] = pre ++ "Fecha" :: suf ∧
        ∀ d ∈ pre, esNombreFecha d = false :=
  (c4_detector_codigo ["Año", "Fecha"] "Fecha").1 (by decide)

/-- C5, counterexample: normalization is not idempotent in general — on
`tC5`, whose normalized output still contains the date-like column
`date_fin`, a second normalization re-detects it and re-indexes the table,
changing the time index. -/
theorem c5_contraejemplo :
    normalizar dicVacio (normalizar dicVacio tC5) ≠ normalizar dicVacio tC5 := by
  decide

/-- C5, amended: normalization is idempotent exactly when re-detection finds
nothing: for every table whose normalized output contains no date-like column
(true in particular when the only date column is named exactly `fecha`),
normalizing the normalized output yields an equal table. -/
theorem c5_idempotencia (dic : Diccionarios) (df : Table)
    (h : colFechaDetect (normalizar dic df).cols = none) :
    normalizar dic (normalizar dic df) = normalizar dic df := by
  have h2 : normalizar dic df = nucleoNormalizar dic (pasoFecha df) := by
    show pasoCausa dic (pasoProvincia dic (pasoComunidad dic
      (pasoNumerico (pasoRename (pasoFecha df))))) = nucleoNormalizar dic (pasoFecha df)
    rw [pasoRename_id]
    rfl
  rw [normalizar_sin_fecha dic _ h, h2, nucleo_idem]

/-- C5, witness: the amended idempotence at the concrete table `tW5`, whose
single date column `fecha` is consumed into the index by the first pass. -/
theorem c5_testigo :
    normalizar dicVacio (normalizar dicVacio tW5) = normalizar dicVacio tW5 :=
  c5_idempotencia dicVacio tW5 (by decide)

/-- C6, counterexample: for an archive with no qualifying CSV entry
`cargar_datos` returns the empty table but does NOT report the condition —
the emitted report list is empty (line 62 returns silently). -/
theorem c6_contraejemplo :
    (cargar_datos dicVacio zipSinCsv).informes = [] ∧
    (cargar_datos dicVacio zipSinCsv).tabla = tablaVacia := by
  constructor <;> decide

/-- C6, amended: `cargar_datos` never propagates an exception: a missing
archive and an unreadable archive are reported and yield the empty table,
while an archive without a qualifying CSV entry yields the empty table
silently (no report). -/
theorem c6_carga_segura (dic : Diccionarios) (entradas : List (String × Table))
    (h : entradas.filter (fun e => esEntradaCsv e.1) = []) :
    cargar_datos dic Archivo.ausente = ⟨["No encuentro el archivo"], tablaVacia⟩ ∧
    cargar_datos dic Archivo.ilegible = ⟨["Error critico cargando datos"], tablaVacia⟩ ∧
    cargar_datos dic (Archivo.zip entradas) = ⟨[], tablaVacia⟩ := by
  refine ⟨rfl, rfl, ?_⟩
  unfold cargar_datos
  dsimp only
  rw [h]

/-- C6, witness: the amended theorem at a concrete archive holding a single
non-CSV entry. -/
theorem c6_testigo :
    cargar_datos dicVacio Archivo.ausente = ⟨["No encuentro el archivo"], tablaVacia⟩ ∧
    cargar_datos dicVacio Archivo.ilegible = ⟨["Error critico cargando datos"], tablaVacia⟩ ∧
    cargar_datos dicVacio (Archivo.zip [("datos.txt", tablaVacia)]) = ⟨[], tablaVacia⟩ :=
  c6_carga_segura dicVacio [("datos.txt", tablaVacia)] (by decide)

/-- C7 (confirmed): when a date column is detected, the date step keeps every
row (each output row is `filaConIdx` of an input row, whose index is the
parse result — null for unparseable values), installs the time index, and
leaves the rows sorted ascending by index (null `NaT` last). -/
theorem c7_paso_fecha (df : Table) (cf : String)
    (h : colFechaDetect df.cols = some cf) :
    (pasoFecha df).hasTimeIndex = true ∧
    (pasoFecha df).rows.length = df.rows.length ∧
    List.Perm (pasoFecha df).rows (df.rows.map (filaConIdx cf)) ∧
    List.Sorted RowLe (pasoFecha df).rows ∧
    ∀ r ∈ df.rows, (filaConIdx cf r).tidx = toDatetime (getCol r.cells cf) := by
  have hrows : (pasoFecha df).rows
      = List.insertionSort RowLe (df.rows.map (filaConIdx cf)) := by
    unfold pasoFecha
    rw [h]
  refine ⟨?_, ?_, ?_, ?_, fun r _ => rfl⟩
  · unfold pasoFecha
    rw [h]
  · rw [hrows]
    exact (List.perm_insertionSort RowLe _).length_eq.trans (List.length_map _ _)
  · rw [hrows]
    exact List.perm_insertionSort RowLe _
  · rw [hrows]
    exact List.sorted_insertionSort RowLe _

/-- C7, witness: the date step on `tC7` (unsorted dates, one unparseable). -/
theorem c7_testigo :
    (pasoFecha tC7).hasTimeIndex = true ∧
    (pasoFecha tC7).rows.length = tC7.rows.length ∧
    List.Perm (pasoFecha tC7).rows (tC7.rows.map (filaConIdx "fecha")) ∧
    List.Sorted RowLe (pasoFecha tC7).rows ∧
    ∀ r ∈ tC7.rows, (filaConIdx "fecha" r).tidx = toDatetime (getCol r.cells "fecha") :=
  c7_paso_fecha tC7 "fecha" (by decide)

/-- C8 (confirmed): when the cause lookup is loaded and the cause column is
present, `causa_texto` is computed row-by-row as the lookup of that row's code
with default `"No especificado"` for unmatched codes — so each row's label
depends only on its own code. -/
theorem c8_mapa_causas (dic : Diccionarios) (df : Table) (m : List (Cell × String))
    (hm : dic.causas = some m)
    (hc : df.cols.contains (colCausa df.cols) = true) :
    (pasoCausa dic df).rows.map (fun r => getCol r.cells "causa_texto")
      = df.rows.map (fun r => etiqueta m (getCol r.cells (colCausa df.cols)) "No especificado") := by
  unfold pasoCausa
  rw [hm]
  dsimp only
  rw [if_pos hc]
  exact ponColumna_getCol df "causa_texto" _

/-- C8, witness: on `tC8` the mapped code becomes `"Rayo"` and the unmatched
code `99` becomes `"No especificado"`, the mapped row unaffected. -/
theorem c8_testigo :
    ((pasoCausa dicC8 tC8).rows.map (fun r => getCol r.cells "causa_texto")
      = tC8.rows.map (fun r => etiqueta mC8 (getCol r.cells (colCausa tC8.cols)) "No especificado")) ∧
    (pasoCausa dicC8 tC8).rows.map (fun r => getCol r.cells "causa_texto")
      = [Cell.str "Rayo", Cell.str "No especificado"] :=
  ⟨c8_mapa_causas dicC8 tC8 mC8 rfl (by decide), by decide⟩

/-- C9, counterexample: the heatmap receives every geolocated row — on a
table with 2001 geolocated rows it is handed 2001 points, above the
claimed 2000-point cap. -/
theorem c9_contraejemplo :
    (datosHeatMap (df_geo tC9)).length = 2001 ∧
    2000 < (datosHeatMap (df_geo tC9)).length := by
  have h : (df_geo tC9).rows = List.replicate 2001 filaGeo := by
    unfold df_geo tC9
    exact List.filter_eq_self.mpr (fun r hr => by
      rw [List.eq_of_mem_replicate hr]
      rfl)
  have hl : (datosHeatMap (df_geo tC9)).length = 2001 := by
    unfold datosHeatMap
    rw [List.length_map, h, List.length_replicate]
  exact ⟨hl, by rw [hl]; norm_num⟩

/-- C9, amended: only the clustered point map enforces the 2000-row cap
(`df_display = df_geo.head(2000)`, lines 190–191); the heatmap receives all
geolocated rows, however many there are. -/
theorem c9_limite_puntos (df : Table) :
    (df_display (df_geo df)).rows.length ≤ 2000 ∧
    (datosHeatMap (df_geo df)).length = (df_geo df).rows.length := by
  constructor
  · unfold df_display
    rw [List.length_take]
    exact min_le_left _ _
  · unfold datosHeatMap
    exact List.length_map _ _

/-- C10 (confirmed): the minimum-burned-area filter keeps exactly the rows
whose `superficie` cell is a numeric value at least the threshold; null
(NaN) cells never pass, even at threshold 0, because the pandas comparison
with NaN is false. -/
theorem c10_filtro_superficie (df : Table) (t : ℚ) (ht : 0 ≤ t) (r : Row) :
    r ∈ (filtraSuperficie t df).rows ↔
      r ∈ df.rows ∧ ∃ q : ℚ, getCol r.cells "superficie" = Cell.num q ∧ t ≤ q := by
  unfold filtraSuperficie
  rw [List.mem_filter]
  constructor
  · rintro ⟨hmem, hp⟩
    refine ⟨hmem, ?_⟩
    unfold cumpleSuperficie at hp
    rcases hcell : getCol r.cells "superficie" with _ | s | q | d <;> rw [hcell] at hp
    · exact Bool.noConfusion hp
    · exact Bool.noConfusion hp
    · exact ⟨q, rfl, of_decide_eq_true hp⟩
    · exact Bool.noConfusion hp
  · rintro ⟨hmem, q, hq, hle⟩
    refine ⟨hmem, ?_⟩
    unfold cumpleSuperficie
    rw [hq]
    exact decide_eq_true hle

/-- C10, witness: at threshold 0 the filter on `tC10` keeps the numeric row;
the instantiated membership characterization for that row. -/
theorem c10_testigo :
    filaC10 ∈ (filtraSuperficie 0 tC10).rows ↔
      filaC10 ∈ tC10.rows ∧
        ∃ q : ℚ, getCol filaC10.cells "superficie" = Cell.num q ∧ 0 ≤ q :=
  c10_filtro_superficie tC10 0 (by norm_num) filaC10

end Incendios
